import Mathlib

/-!
# dingrobot: signed webhook URLs and the send pipeline

A shallow embedding of `dingrobot.go`.

* Go strings are modelled as Lean `String`s (text), `[]byte(s)` as the list of
  UTF-8 bytes of `s`, a byte as a natural number.
* The functions of the Go standard library that the package calls (`fmt.Sprintf`,
  `crypto/sha256`, `crypto/hmac`, `encoding/base64`, `net/url`, `encoding/json`)
  are executable models of the library; `uint32` arithmetic is arithmetic on
  naturals reduced modulo `2^32`, `int` has 64 bits.
* What `send` reads from outside (the clock, `json.Marshal`, the HTTP client) is an
  explicit argument `Env`; `send` returns its error together with the list of
  the calls it made.  A call of `Do` is not looked into: it yields its result and
  the requests it put through the transport, of which there may be several.
-/

namespace Dingrobot

/-! ## Bytes of a string -/

/-- UTF-8 encoding of one code point, as Go stores it inside a string. -/
def utf8EncodeChar (c : Char) : List Nat :=
  let v := c.toNat
  if v < 0x80 then [v]
  else if v < 0x800 then [0xC0 + v / 64, 0x80 + v % 64]
  else if v < 0x10000 then [0xE0 + v / 4096, 0x80 + (v / 64) % 64, 0x80 + v % 64]
  else [0xF0 + v / 262144, 0x80 + (v / 4096) % 64, 0x80 + (v / 64) % 64, 0x80 + v % 64]

/-- The conversion `[]byte(s)`. -/
def stringBytes (s : String) : List Nat :=
  s.data.flatMap utf8EncodeChar

/-- The builtin `len(s)` of a string: its number of bytes. -/
def len (s : String) : Nat :=
  (stringBytes s).length

/-! ## strconv / fmt -/

/-- The decimal digit character of `d < 10`. -/
def digitChar (d : Nat) : Char :=
  Char.ofNat (48 + d)

/-- Decimal digits of `n`, most significant first; `fuel` bounds the number of digits. -/
def decDigits : Nat → Nat → List Char
  | 0, _ => []
  | fuel + 1, n =>
    if n < 10 then [digitChar n] else decDigits fuel (n / 10) ++ [digitChar (n % 10)]

/-- Base-10 rendering of an unsigned value (`strconv.FormatUint(n, 10)`). -/
def formatNat (n : Nat) : List Char :=
  decDigits (n + 1) n

/-- Base-10 rendering of a signed value (`strconv.FormatInt(i, 10)`, the verb `%d`). -/
def formatInt (i : Int) : String :=
  if i < 0 then String.mk ('-' :: formatNat i.natAbs) else String.mk (formatNat i.natAbs)

/-- An operand of `fmt.Sprintf`. -/
inductive Arg where
  | str (s : String)
  | int (i : Int)
deriving DecidableEq, Repr

/-- Go type name of an operand, as printed in a bad-verb marker. -/
def Arg.typeName : Arg → String
  | .str _ => "string"
  | .int _ => "int64"

/-- Default (`%v`) rendering of an operand. -/
def Arg.render : Arg → String
  | .str s => s
  | .int i => formatInt i

/-- Rendering of one operand under one verb; a verb that does not fit the
operand yields the marker `%!verb(type=value)`. -/
def formatVerb (verb : Char) (a : Arg) : String :=
  match verb, a with
  | 'v', a => a.render
  | 's', .str s => s
  | 'd', .int i => formatInt i
  | c, a => "%!" ++ String.singleton c ++ "(" ++ a.typeName ++ "=" ++ a.render ++ ")"

/-- The marker appended for operands no verb consumed. -/
def extraArgs : List Arg → String
  | [] => ""
  | a :: as =>
    "%!(EXTRA " ++ ", ".intercalate ((a :: as).map fun x => x.typeName ++ "=" ++ x.render) ++ ")"

/-- The scanning loop of `fmt.Sprintf` over the characters of the format. -/
def sprintfAux : List Char → List Arg → String
  | [], args => extraArgs args
  | '%' :: [], _ => "%!(NOVERB)"
  | '%' :: '%' :: rest, args => "%" ++ sprintfAux rest args
  | '%' :: verb :: rest, [] => "%!" ++ String.singleton verb ++ "(MISSING)" ++ sprintfAux rest []
  | '%' :: verb :: rest, a :: args => formatVerb verb a ++ sprintfAux rest args
  | c :: rest, args => String.singleton c ++ sprintfAux rest args

/-- The call `fmt.Sprintf(format, args...)` for plain verbs (no flags or widths). -/
def Sprintf (format : String) (args : List Arg) : String :=
  sprintfAux format.data args

/-! ## crypto/sha256 -/

/-- Addition of `uint32` values. -/
def add32 (a b : Nat) : Nat := (a + b) % 2 ^ 32

/-- The call `bits.RotateLeft32(x, -n)`: rotation to the right by `n` bits. -/
def rotr32 (x n : Nat) : Nat :=
  ((x >>> n) ||| (x <<< (32 - n))) % 2 ^ 32

/-- Bitwise complement of a `uint32`. -/
def not32 (x : Nat) : Nat := (2 ^ 32 - 1) ^^^ (x % 2 ^ 32)

/-- The round constants `_K`. -/
def K256 : List Nat :=
  [0x428A2F98, 0x71374491, 0xB5C0FBCF, 0xE9B5DBA5, 0x3956C25B, 0x59F111F1, 0x923F82A4, 0xAB1C5ED5,
   0xD807AA98, 0x12835B01, 0x243185BE, 0x550C7DC3, 0x72BE5D74, 0x80DEB1FE, 0x9BDC06A7, 0xC19BF174,
   0xE49B69C1, 0xEFBE4786, 0x0FC19DC6, 0x240CA1CC, 0x2DE92C6F, 0x4A7484AA, 0x5CB0A9DC, 0x76F988DA,
   0x983E5152, 0xA831C66D, 0xB00327C8, 0xBF597FC7, 0xC6E00BF3, 0xD5A79147, 0x06CA6351, 0x14292967,
   0x27B70A85, 0x2E1B2138, 0x4D2C6DFC, 0x53380D13, 0x650A7354, 0x766A0ABB, 0x81C2C92E, 0x92722C85,
   0xA2BFE8A1, 0xA81A664B, 0xC24B8B70, 0xC76C51A3, 0xD192E819, 0xD6990624, 0xF40E3585, 0x106AA070,
   0x19A4C116, 0x1E376C08, 0x2748774C, 0x34B0BCB5, 0x391C0CB3, 0x4ED8AA4A, 0x5B9CCA4F, 0x682E6FF3,
   0x748F82EE, 0x78A5636F, 0x84C87814, 0x8CC70208, 0x90BEFFFA, 0xA4506CEB, 0xBEF9A3F7, 0xC67178F2]

/-- The eight chaining words `h[0..7]` of a digest in progress. -/
structure Digest where
  h0 : Nat
  h1 : Nat
  h2 : Nat
  h3 : Nat
  h4 : Nat
  h5 : Nat
  h6 : Nat
  h7 : Nat
deriving DecidableEq, Repr

/-- The initial chaining value. -/
def Digest.init : Digest :=
  ⟨0x6A09E667, 0xBB67AE85, 0x3C6EF372, 0xA54FF53A, 0x510E527F, 0x9B05688C, 0x1F83D9AB, 0x5BE0CD19⟩

/-- Big-endian words of a block: `w[i] = p[4i]<<24 | p[4i+1]<<16 | p[4i+2]<<8 | p[4i+3]`. -/
def beWords : List Nat → List Nat
  | a :: b :: c :: d :: rest => ((a <<< 24) ||| (b <<< 16) ||| (c <<< 8) ||| d) :: beWords rest
  | _ => []

/-- Extension of the message schedule by `n` further words. -/
def extendSchedule : Nat → List Nat → List Nat
  | 0, w => w
  | n + 1, w =>
    let i := w.length
    let v1 := w.getD (i - 2) 0
    let t1 := rotr32 v1 17 ^^^ rotr32 v1 19 ^^^ (v1 >>> 10)
    let v2 := w.getD (i - 15) 0
    let t2 := rotr32 v2 7 ^^^ rotr32 v2 18 ^^^ (v2 >>> 3)
    extendSchedule n (w ++ [add32 (add32 (add32 t1 (w.getD (i - 7) 0)) t2) (w.getD (i - 16) 0)])

/-- The 64 compression rounds over pairs `(_K[i], w[i])`. -/
def rounds : List (Nat × Nat) → Digest → Digest
  | [], s => s
  | (k, w) :: rest, ⟨a, b, c, d, e, f, g, h⟩ =>
    let t1 := add32 (add32 (add32 (add32 h (rotr32 e 6 ^^^ rotr32 e 11 ^^^ rotr32 e 25))
      ((e &&& f) ^^^ (not32 e &&& g))) k) w
    let t2 := add32 (rotr32 a 2 ^^^ rotr32 a 13 ^^^ rotr32 a 22) ((a &&& b) ^^^ (a &&& c) ^^^ (b &&& c))
    rounds rest ⟨add32 t1 t2, a, b, c, add32 d t1, e, f, g⟩

/-- One iteration of `blockGeneric`: the compression of a 64-byte chunk. -/
def block (dig : Digest) (p : List Nat) : Digest :=
  let w := extendSchedule 48 (beWords (p.take 64))
  let r := rounds (K256.zip w) dig
  ⟨add32 dig.h0 r.h0, add32 dig.h1 r.h1, add32 dig.h2 r.h2, add32 dig.h3 r.h3,
   add32 dig.h4 r.h4, add32 dig.h5 r.h5, add32 dig.h6 r.h6, add32 dig.h7 r.h7⟩

/-- The loop `for len(p) >= chunk` of `blockGeneric`, run `n` times. -/
def blocks : Nat → Digest → List Nat → Digest
  | 0, dig, _ => dig
  | n + 1, dig, p => blocks n (block dig p) (p.drop 64)

/-- Big-endian bytes of a value on `n` bytes. -/
def beBytes : Nat → Nat → List Nat
  | 0, _ => []
  | n + 1, v => (v >>> (8 * n)) % 256 :: beBytes n v

/-- Message padding: `0x80`, zeros up to 56 modulo 64, then the bit length on 8 bytes. -/
def pad (msg : List Nat) : List Nat :=
  msg ++ 0x80 :: List.replicate ((119 - msg.length % 64) % 64) 0
    ++ beBytes 8 ((msg.length * 8) % 2 ^ 64)

/-- The 32 bytes of a finished digest. -/
def Digest.bytes (d : Digest) : List Nat :=
  beBytes 4 d.h0 ++ beBytes 4 d.h1 ++ beBytes 4 d.h2 ++ beBytes 4 d.h3 ++
  beBytes 4 d.h4 ++ beBytes 4 d.h5 ++ beBytes 4 d.h6 ++ beBytes 4 d.h7

/-- The SHA-256 checksum of a byte sequence (`sha256.New`, `Write`, `Sum(nil)`). -/
def sha256Sum (msg : List Nat) : List Nat :=
  let p := pad msg
  (blocks (p.length / 64) Digest.init p).bytes

/-! ## crypto/hmac -/

/-- Byte-wise exclusive or of a key block with a constant. -/
def xorPad (key : List Nat) (c : Nat) : List Nat :=
  key.map fun b => b ^^^ c

/-- The key block of `hmac.New`: a key longer than the block size is hashed
first, and the result is filled with zeros up to 64 bytes. -/
def hmacKeyBlock (key : List Nat) : List Nat :=
  let k := if key.length > 64 then sha256Sum key else key
  k ++ List.replicate (64 - k.length) 0

/-- HMAC-SHA256 of `msg` under `key`. -/
def hmacSha256 (key msg : List Nat) : List Nat :=
  let kb := hmacKeyBlock key
  sha256Sum (xorPad kb 0x5c ++ sha256Sum (xorPad kb 0x36 ++ msg))

/-! ## encoding/base64 -/

/-- The alphabet of `base64.StdEncoding`. -/
def encodeStd : List Char :=
  "ABCDEFGHIJKLMNOPQRSTUVWXYZabcdefghijklmnopqrstuvwxyz0123456789+/".data

/-- Alphabet lookup `enc.encode[i]`. -/
def b64Char (i : Nat) : Char :=
  encodeStd.getD i 'A'

/-- The call `base64.StdEncoding.EncodeToString`: three bytes give four characters, a final
group of one or two bytes is completed with the pad character. -/
def base64StdEncode : List Nat → List Char
  | a :: b :: c :: rest =>
    let val := (a <<< 16) ||| (b <<< 8) ||| c
    b64Char ((val >>> 18) &&& 0x3F) :: b64Char ((val >>> 12) &&& 0x3F) ::
      b64Char ((val >>> 6) &&& 0x3F) :: b64Char (val &&& 0x3F) :: base64StdEncode rest
  | [a, b] =>
    let val := (a <<< 16) ||| (b <<< 8)
    [b64Char ((val >>> 18) &&& 0x3F), b64Char ((val >>> 12) &&& 0x3F),
     b64Char ((val >>> 6) &&& 0x3F), '=']
  | [a] =>
    let val := a <<< 16
    [b64Char ((val >>> 18) &&& 0x3F), b64Char ((val >>> 12) &&& 0x3F), '=', '=']
  | [] => []

/-! ## net/url -/

/-- The test `shouldEscape(c, encodeQueryComponent)`: only ASCII letters, digits
and the marks `-`, `_`, `.`, `~` are left alone. -/
def shouldEscape (c : Nat) : Bool :=
  if (97 ≤ c ∧ c ≤ 122) ∨ (65 ≤ c ∧ c ≤ 90) ∨ (48 ≤ c ∧ c ≤ 57) then false
  else if c = 45 ∨ c = 95 ∨ c = 46 ∨ c = 126 then false
  else true

/-- The table `upperhex`. -/
def upperhex (n : Nat) : Char :=
  "0123456789ABCDEF".data.getD n '0'

/-- Escaping of one byte in a query component: a space becomes `+`, any other
byte that must be escaped becomes `%XX`. -/
def escapeByte (c : Nat) : List Char :=
  if c = 32 then ['+']
  else if shouldEscape c then ['%', upperhex (c >>> 4), upperhex (c &&& 15)]
  else [Char.ofNat c]

/-- The call `url.QueryEscape(s)`. -/
def QueryEscape (s : String) : String :=
  String.mk ((stringBytes s).flatMap escapeByte)

/-! ## Signed-URL generator -/

/-- The function `computeHmacSha256(message, secret)`. -/
def computeHmacSha256 (message : String) (secret : String) : String :=
  let key := stringBytes secret
  String.mk (base64StdEncode (hmacSha256 key (stringBytes message)))

/-- Division of `int64` values, which truncates toward zero. -/
def int64Div (a b : Int) : Int := Int.tdiv a b

/-- The timestamp string of `genSignedURL`: the local `timeStr`, the clock reading
`time.Now().UnixNano()` divided by `1e6` and printed with `%d`. -/
def timeStr (unixNano : Int) : String :=
  Sprintf "%d" [.int (int64Div unixNano 1000000)]

/-- The function `genSignedURL(secret)`, with the clock reading
`time.Now().UnixNano()` passed in as `unixNano`. -/
def genSignedURL (unixNano : Int) (secret : String) : String :=
  let timeStr := timeStr unixNano
  let sign := Sprintf "%s\n%s" [.str timeStr, .str secret]
  let signData := computeHmacSha256 sign secret
  let encodeURL := QueryEscape signData
  Sprintf "&timestamp=%s&sign=%s" [.str timeStr, .str encodeURL]

/-! ## encoding/json: scanning a document -/

/-- A scanned JSON value.  String values and member names keep their raw text,
the characters between the quotes with escapes not yet decoded; numbers keep
their literal. -/
inductive Json where
  | null
  | bool (b : Bool)
  | number (lit : List Char)
  | string (raw : List Char)
  | array (elems : List Json)
  | object (members : List (List Char × Json))

/-- An entry of the scanner's `parseState` stack, with the part of the
enclosing value already scanned. -/
inductive Frame where
  | objectKey (members : List (List Char × Json)) (key : List Char)
  | objectValue (members : List (List Char × Json)) (key : List Char)
  | arrayValue (elems : List Json)

/-- The `step` function the scanner is in, with the text of the literal being read. -/
inductive Step where
  | beginValueOrEmpty
  | beginValue
  | beginStringOrEmpty
  | beginString
  | endValue
  | endTop
  | inString (acc : List Char)
  | inStringEsc (acc : List Char)
  | inStringEscU (seen : Nat) (acc : List Char)
  | neg (acc : List Char)
  | st1 (acc : List Char)
  | st0 (acc : List Char)
  | dot (acc : List Char)
  | dot0 (acc : List Char)
  | stE (acc : List Char)
  | eSign (acc : List Char)
  | e0 (acc : List Char)
  | literal (expect : List Char) (value : Json)

/-- State of the scanner: current step, the stack of open arrays and objects
(innermost first), and the top-level value once it is complete. -/
structure Scanner where
  step : Step
  parseState : List Frame
  top : Option Json

/-- The nesting limit of the scanner. -/
def maxNestingDepth : Nat := 10000

/-- The test `isSpace`. -/
def isSpace (c : Char) : Bool :=
  c == ' ' || c == '\t' || c == '\r' || c == '\n'

/-- Decimal digit test `'0' <= c && c <= '9'`. -/
def isDigit (c : Char) : Bool :=
  48 ≤ c.toNat && c.toNat ≤ 57

/-- Hexadecimal digit test used inside `\u` escapes. -/
def isHex (c : Char) : Bool :=
  isDigit c || (97 ≤ c.toNat && c.toNat ≤ 102) || (65 ≤ c.toNat && c.toNat ≤ 70)

/-- A value has just been completed: it is stored in the innermost open
array or object, or becomes the top-level value; the scanner moves to `endValue`. -/
def complete (stack : List Frame) (v : Json) : Option Scanner :=
  match stack with
  | [] => some ⟨.endValue, [], some v⟩
  | .arrayValue elems :: rest => some ⟨.endValue, .arrayValue (elems ++ [v]) :: rest, none⟩
  | .objectValue members key :: rest =>
    some ⟨.endValue, .objectValue (members ++ [(key, v)]) key :: rest, none⟩
  | .objectKey members _ :: rest =>
    match v with
    | .string raw => some ⟨.endValue, .objectKey members raw :: rest, none⟩
    | _ => none

/-- The method `pushParseState`: opening an array or object fails beyond the nesting limit. -/
def pushParseState (stack : List Frame) (f : Frame) (next : Step) : Option Scanner :=
  if stack.length + 1 ≤ maxNestingDepth then some ⟨next, f :: stack, none⟩ else none

/-- The step `stateBeginValue`. -/
def stateBeginValue (stack : List Frame) (c : Char) : Option Scanner :=
  if isSpace c then some ⟨.beginValue, stack, none⟩
  else if c = '\x7b' then pushParseState stack (.objectKey [] []) .beginStringOrEmpty
  else if c = '[' then pushParseState stack (.arrayValue []) .beginValueOrEmpty
  else if c = '"' then some ⟨.inString [], stack, none⟩
  else if c = '-' then some ⟨.neg [c], stack, none⟩
  else if c = '0' then some ⟨.st0 [c], stack, none⟩
  else if c = 't' then some ⟨.literal ['r', 'u', 'e'] (.bool true), stack, none⟩
  else if c = 'f' then some ⟨.literal ['a', 'l', 's', 'e'] (.bool false), stack, none⟩
  else if c = 'n' then some ⟨.literal ['u', 'l', 'l'] .null, stack, none⟩
  else if 49 ≤ c.toNat ∧ c.toNat ≤ 57 then some ⟨.st1 [c], stack, none⟩
  else none

/-- The step `stateBeginString`: a member name must start here. -/
def stateBeginString (stack : List Frame) (c : Char) : Option Scanner :=
  if isSpace c then some ⟨.beginString, stack, none⟩
  else if c = '"' then some ⟨.inString [], stack, none⟩
  else none

/-- The step `stateEndTop`: after the top-level value only white space may follow. -/
def stateEndTop (top : Option Json) (c : Char) : Option Scanner :=
  if isSpace c then some ⟨.endTop, [], top⟩ else none

/-- The step `stateEndValue`: after a value, the separator or closing bracket
that the innermost open array or object allows. -/
def stateEndValue (stack : List Frame) (top : Option Json) (c : Char) : Option Scanner :=
  match stack with
  | [] => stateEndTop top c
  | .objectKey members key :: rest =>
    if isSpace c then some ⟨.endValue, stack, none⟩
    else if c = ':' then some ⟨.beginValue, .objectValue members key :: rest, none⟩
    else none
  | .objectValue members key :: rest =>
    if isSpace c then some ⟨.endValue, stack, none⟩
    else if c = ',' then some ⟨.beginString, .objectKey members key :: rest, none⟩
    else if c = '\x7d' then complete rest (.object members)
    else none
  | .arrayValue elems :: rest =>
    if isSpace c then some ⟨.endValue, stack, none⟩
    else if c = ',' then some ⟨.beginValue, stack, none⟩
    else if c = ']' then complete rest (.array elems)
    else none

/-- A numeric literal ended before `c`: the number is completed, then `c` is
handled by `stateEndValue`. -/
def endNumber (stack : List Frame) (acc : List Char) (c : Char) : Option Scanner :=
  match complete stack (.number acc) with
  | some s => stateEndValue s.parseState s.top c
  | none => none

/-- One call `scan.step(scan, c)`; `none` is the result `scanError`. -/
def Scanner.next (s : Scanner) (c : Char) : Option Scanner :=
  match s.step with
  | .beginValueOrEmpty =>
    if isSpace c then some s
    else if c = ']' then stateEndValue s.parseState s.top c
    else stateBeginValue s.parseState c
  | .beginValue => stateBeginValue s.parseState c
  | .beginStringOrEmpty =>
    if isSpace c then some s
    else if c = '\x7d' then
      match s.parseState with
      | .objectKey members key :: rest => stateEndValue (.objectValue members key :: rest) s.top c
      | _ => none
    else stateBeginString s.parseState c
  | .beginString => stateBeginString s.parseState c
  | .endValue => stateEndValue s.parseState s.top c
  | .endTop => stateEndTop s.top c
  | .inString acc =>
    if c = '"' then complete s.parseState (.string acc)
    else if c = '\\' then some { s with step := .inStringEsc (acc ++ [c]) }
    else if c.toNat < 0x20 then none
    else some { s with step := .inString (acc ++ [c]) }
  | .inStringEsc acc =>
    if c = 'b' ∨ c = 'f' ∨ c = 'n' ∨ c = 'r' ∨ c = 't' ∨ c = '\\' ∨ c = '/' ∨ c = '"' then
      some { s with step := .inString (acc ++ [c]) }
    else if c = 'u' then some { s with step := .inStringEscU 0 (acc ++ [c]) }
    else none
  | .inStringEscU seen acc =>
    if isHex c then
      some { s with step := if seen < 3 then .inStringEscU (seen + 1) (acc ++ [c])
                            else .inString (acc ++ [c]) }
    else none
  | .neg acc =>
    if c = '0' then some { s with step := .st0 (acc ++ [c]) }
    else if 49 ≤ c.toNat ∧ c.toNat ≤ 57 then some { s with step := .st1 (acc ++ [c]) }
    else none
  | .st1 acc =>
    if isDigit c then some { s with step := .st1 (acc ++ [c]) }
    else if c = '.' then some { s with step := .dot (acc ++ [c]) }
    else if c = 'e' ∨ c = 'E' then some { s with step := .stE (acc ++ [c]) }
    else endNumber s.parseState acc c
  | .st0 acc =>
    if c = '.' then some { s with step := .dot (acc ++ [c]) }
    else if c = 'e' ∨ c = 'E' then some { s with step := .stE (acc ++ [c]) }
    else endNumber s.parseState acc c
  | .dot acc =>
    if isDigit c then some { s with step := .dot0 (acc ++ [c]) } else none
  | .dot0 acc =>
    if isDigit c then some { s with step := .dot0 (acc ++ [c]) }
    else if c = 'e' ∨ c = 'E' then some { s with step := .stE (acc ++ [c]) }
    else endNumber s.parseState acc c
  | .stE acc =>
    if c = '+' ∨ c = '-' then some { s with step := .eSign (acc ++ [c]) }
    else if isDigit c then some { s with step := .e0 (acc ++ [c]) }
    else none
  | .eSign acc =>
    if isDigit c then some { s with step := .e0 (acc ++ [c]) } else none
  | .e0 acc =>
    if isDigit c then some { s with step := .e0 (acc ++ [c]) }
    else endNumber s.parseState acc c
  | .literal expect value =>
    match expect with
    | [] => none
    | [e] => if c = e then complete s.parseState value else none
    | e :: more => if c = e then some { s with step := .literal more value } else none

/-- The scanner after `reset`. -/
def Scanner.reset : Scanner := ⟨.beginValue, [], none⟩

/-- The loop of `checkValid`: every character is fed to the scanner. -/
def scanAll : Scanner → List Char → Option Scanner
  | s, [] => some s
  | s, c :: cs =>
    match s.next c with
    | some s' => scanAll s' cs
    | none => none

/-- The method `eof`: a final space is fed to the scanner, after which the
top-level value must be complete. -/
def Scanner.eof (s : Scanner) : Option Json :=
  match s.next ' ' with
  | some s' => match s'.parseState with
    | [] => s'.top
    | _ => none
  | none => none

/-- Scanning of a whole document: `none` when `checkValid` reports a syntax
error, otherwise the value the document denotes. -/
def scanDocument (data : String) : Option Json :=
  match scanAll Scanner.reset data.data with
  | some s => s.eof
  | none => none

/-! ## encoding/json: decoding into `dingResponse` -/

/-- The errors `send` can return. -/
inductive GoError where
  /-- A `*json.SyntaxError`: the document is not valid JSON. -/
  | jsonSyntaxError
  /-- A `*json.UnmarshalTypeError`: a JSON value does not fit the Go value it is stored in. -/
  | jsonUnmarshalTypeError (value : String)
  /-- An error made by `errors.New` or `fmt.Errorf`, with its message. -/
  | errorString (msg : String)
  /-- A `*url.Error`: the operation, the URL and the message of the underlying error. -/
  | urlError (op url msg : String)
  /-- Any other error, produced outside this package (marshalling, URL parsing, transport, reading). -/
  | other (msg : String)
deriving DecidableEq, Repr

/-- The struct `dingResponse`. -/
structure dingResponse where
  Errcode : Int
  Errmsg : String
deriving DecidableEq, Repr

/-- Value of a hexadecimal digit. -/
def hexVal (c : Char) : Nat :=
  if isDigit c then c.toNat - 48
  else if 97 ≤ c.toNat ∧ c.toNat ≤ 102 then c.toNat - 87
  else c.toNat - 55

/-- The replacement character U+FFFD. -/
def replacementChar : Char := Char.ofNat 0xFFFD

/-- A high surrogate left without its low half decodes to U+FFFD. -/
def flushSurrogate : Option Nat → List Char
  | some _ => [replacementChar]
  | none => []

/-- Code unit of a `\uXXXX` escape met with no high surrogate pending. -/
def storeUnit (rr : Nat) : Option Nat × List Char :=
  if 0xD800 ≤ rr ∧ rr < 0xDC00 then (some rr, [])
  else if 0xDC00 ≤ rr ∧ rr < 0xE000 then (none, [replacementChar])
  else (none, [Char.ofNat rr])

/-- Decoding of the escapes of a scanned string (`unquote`).  `pending` is a
high surrogate read from the preceding `\u` escape: with a low surrogate right
after it, the pair is one code point; otherwise it decodes to U+FFFD. -/
def unquoteAux : Option Nat → List Char → List Char
  | pending, '\\' :: 'u' :: a :: b :: c :: d :: rest =>
    let rr := ((hexVal a * 16 + hexVal b) * 16 + hexVal c) * 16 + hexVal d
    match pending with
    | some hi =>
      if 0xDC00 ≤ rr ∧ rr < 0xE000 then
        Char.ofNat (0x10000 + (hi - 0xD800) * 0x400 + (rr - 0xDC00)) :: unquoteAux none rest
      else replacementChar :: (storeUnit rr).2 ++ unquoteAux (storeUnit rr).1 rest
    | none => (storeUnit rr).2 ++ unquoteAux (storeUnit rr).1 rest
  | pending, '\\' :: e :: rest =>
    let c :=
      if e = 'b' then Char.ofNat 8 else if e = 'f' then Char.ofNat 12
      else if e = 'n' then '\n' else if e = 'r' then '\r' else if e = 't' then '\t' else e
    flushSurrogate pending ++ c :: unquoteAux none rest
  | pending, c :: rest => flushSurrogate pending ++ c :: unquoteAux none rest
  | pending, [] => flushSurrogate pending

/-- The string denoted by the raw text of a scanned string. -/
def unquote (raw : List Char) : String :=
  String.mk (unquoteAux none raw)

/-- Case folding of member names, on the fold orbits that contain an ASCII
letter: lower case to upper case, U+017F to `S`, U+212A to `K`. -/
def foldRune (c : Char) : Char :=
  if 97 ≤ c.toNat ∧ c.toNat ≤ 122 then Char.ofNat (c.toNat - 32)
  else if c.toNat = 0x17F then 'S'
  else if c.toNat = 0x212A then 'K'
  else c

/-- Folded form of a member name. -/
def foldName (name : String) : List Char :=
  name.data.map foldRune

/-- The fields of `dingResponse`, by their `json` tags. -/
inductive Field where
  | errcode
  | errmsg
deriving DecidableEq, Repr

/-- The field a member name selects: the one whose tag equals the name up to case folding. -/
def findField (key : String) : Option Field :=
  if foldName key = foldName "errcode" then some .errcode
  else if foldName key = foldName "errmsg" then some .errmsg
  else none

/-- The call `strconv.ParseInt(s, 10, 64)` on a numeric literal: an optional
sign and decimal digits, within the range of `int64` (which is also the range of
`int`, taken to have 64 bits). -/
def parseInt (lit : List Char) : Option Int :=
  let neg := lit.head? = some '-'
  let ds := if neg then lit.drop 1 else lit
  if ds ≠ [] ∧ ds.all isDigit then
    let n : Int := (ds.foldl (fun a c => a * 10 + (c.toNat - 48)) 0 : Nat)
    let v : Int := if neg then -n else n
    if -(2 : Int) ^ 63 ≤ v ∧ v < (2 : Int) ^ 63 then some v else none
  else none

/-- Name of the kind of a JSON value in an `UnmarshalTypeError`. -/
def Json.kind : Json → String
  | .null => "null"
  | .bool _ => "bool"
  | .number _ => "number"
  | .string _ => "string"
  | .array _ => "array"
  | .object _ => "object"

/-- Storing a JSON value into the `int` field `Errcode`. -/
def storeErrcode (dr : dingResponse) : Json → dingResponse × Option GoError
  | .null => (dr, none)
  | .number lit =>
    match parseInt lit with
    | some n => ({ dr with Errcode := n }, none)
    | none => (dr, some (.jsonUnmarshalTypeError ("number " ++ String.mk lit)))
  | v => (dr, some (.jsonUnmarshalTypeError v.kind))

/-- Storing a JSON value into the `string` field `Errmsg`. -/
def storeErrmsg (dr : dingResponse) : Json → dingResponse × Option GoError
  | .null => (dr, none)
  | .string raw => ({ dr with Errmsg := unquote raw }, none)
  | v => (dr, some (.jsonUnmarshalTypeError v.kind))

/-- Decoding of one object member: a name that selects no field is skipped. -/
def storeMember (st : dingResponse × Option GoError) (m : List Char × Json) :
    dingResponse × Option GoError :=
  match findField (unquote m.1) with
  | none => st
  | some f =>
    let r := match f with
      | .errcode => storeErrcode st.1 m.2
      | .errmsg => storeErrmsg st.1 m.2
    (r.1, if st.2.isSome then st.2 else r.2)

/-- Decoding of a scanned document into a `dingResponse` that starts as `dr`.
Only the first type error is kept (`saveError`); decoding goes on after it. -/
def decode (dr : dingResponse) : Json → dingResponse × Option GoError
  | .object members => members.foldl storeMember (dr, none)
  | .null => (dr, none)
  | v => (dr, some (.jsonUnmarshalTypeError v.kind))

/-- The call `json.Unmarshal(data, &dr)` on a zero-valued `dr`. -/
def jsonUnmarshal (data : String) : Except GoError dingResponse :=
  match scanDocument data with
  | none => .error .jsonSyntaxError
  | some v =>
    match decode ⟨0, ""⟩ v with
    | (dr, none) => .ok dr
    | (_, some err) => .error err

/-! ## Messages -/

/-- Modelled from the spec: the constant `msgTypeText`, declared in a file that is
not among the sources; its value is the `msgtype` of the wire format for text messages. -/
def msgTypeText : String := "text"

/-- Modelled from the spec: the constant `msgTypeLink`, declared in a file that is
not among the sources; the `msgtype` of link messages. -/
def msgTypeLink : String := "link"

/-- Modelled from the spec: the constant `msgTypeMarkdown`, declared in a file that is
not among the sources; the `msgtype` of markdown messages. -/
def msgTypeMarkdown : String := "markdown"

/-- Modelled from the spec: the constant `msgTypeActionCard`, declared in a file that is
not among the sources; the `msgtype` of action-card messages. -/
def msgTypeActionCard : String := "actionCard"

/-- Modelled from the spec: the struct `textParams`, whose declaration is not among
the sources; its field is the one `SendText` sets (the body string of a text message). -/
structure textParams where
  Content : String
deriving DecidableEq, Repr

/-- Modelled from the spec: the struct `atParams`, whose declaration is not among
the sources: the mobile numbers to mention and the flag to mention everyone.  A Go
slice of strings is `none` when nil and `some l` otherwise. -/
structure atParams where
  AtMobiles : Option (List String)
  IsAtAll : Bool
deriving DecidableEq, Repr

/-- Modelled from the spec: the struct `textMessage`, whose declaration is not among
the sources; fields as `SendText` sets them. -/
structure textMessage where
  MsgType : String
  Text : textParams
  At : atParams
deriving DecidableEq, Repr

/-- Modelled from the spec: the struct `linkParams`, whose declaration is not among
the sources: title, body text, target URL and preview-image URL. -/
structure linkParams where
  Title : String
  Text : String
  MessageURL : String
  PicURL : String
deriving DecidableEq, Repr

/-- Modelled from the spec: the struct `linkMessage`, whose declaration is not among
the sources; fields as `SendLink` sets them. -/
structure linkMessage where
  MsgType : String
  Link : linkParams
deriving DecidableEq, Repr

/-- Modelled from the spec: the struct `markdownParams`, whose declaration is not
among the sources: title and markdown body. -/
structure markdownParams where
  Title : String
  Text : String
deriving DecidableEq, Repr

/-- Modelled from the spec: the struct `markdownMessage`, whose declaration is not
among the sources; fields as `SendMarkdown` sets them. -/
structure markdownMessage where
  MsgType : String
  Markdown : markdownParams
  At : atParams
deriving DecidableEq, Repr

/-- Modelled from the spec: the struct `actionCardParams`, whose declaration is not
among the sources: title, body text, button label, button URL, button orientation
and avatar flag, all strings. -/
structure actionCardParams where
  Title : String
  Text : String
  SingleTitle : String
  SingleURL : String
  BtnOrientation : String
  HideAvatar : String
deriving DecidableEq, Repr

/-- Modelled from the spec: the struct `actionCardMessage`, whose declaration is not
among the sources; fields as `SendActionCard` sets them. -/
structure actionCardMessage where
  MsgType : String
  ActionCard : actionCardParams
deriving DecidableEq, Repr

/-- The dynamic value of the `interface{}` argument of `send`: one of the four message structs. -/
inductive Message where
  | text (m : textMessage)
  | link (m : linkMessage)
  | markdown (m : markdownMessage)
  | actionCard (m : actionCardMessage)
deriving DecidableEq, Repr

/-- The `msgtype` discriminator carried by a payload. -/
def Message.msgType : Message → String
  | .text m => m.MsgType
  | .link m => m.MsgType
  | .markdown m => m.MsgType
  | .actionCard m => m.MsgType

/-- The at-mention part of a payload, for the message structs that have one. -/
def Message.at? : Message → Option atParams
  | .text m => some m.At
  | .markdown m => some m.At
  | .link _ => none
  | .actionCard _ => none

/-! ## net/http and the outside world -/

/-- An `*http.Request`, as far as `send` sets it. -/
structure Request where
  Method : String
  URL : String
  Header : List (String × List String)
  Body : String
deriving DecidableEq, Repr

/-- An `*http.Response`: status code, and what `ioutil.ReadAll(resp.Body)` returns. -/
structure Response where
  StatusCode : Nat
  Body : Except GoError String

/-- What one call of `Do` amounts to: the requests it put through the transport,
in order (one per call of the transport's `RoundTrip`: the request itself, then
one more for every redirect the client follows; none when `Do` fails before it
reaches the transport), and what `Do` returns. -/
structure Exchange where
  roundTrips : List Request
  result : Except GoError Response

/-- An `*http.Client`, through its method `Do`. -/
abbrev Client := Request → Exchange

/-- What `send` reads from outside the package. -/
structure Env where
  /-- The clock reading `time.Now().UnixNano()`. -/
  unixNano : Int
  /-- The call `json.Marshal` on a message struct. -/
  jsonMarshal : Message → Except GoError String
  /-- The checks of `url.Parse` that follow `getScheme`, on the raw URL. -/
  urlCheck : String → Option GoError
  /-- The variable `http.DefaultClient`. -/
  DefaultClient : Client

/-- The loop of `getScheme` of `net/url`, at index `i`: a colon at index 0 is an error. -/
def getSchemeAux (rawURL : List Char) : Nat → List Char → Except GoError (List Char × List Char)
  | _, [] => .ok ([], rawURL)
  | i, c :: cs =>
    if (97 ≤ c.toNat ∧ c.toNat ≤ 122) ∨ (65 ≤ c.toNat ∧ c.toNat ≤ 90) then
      getSchemeAux rawURL (i + 1) cs
    else if (48 ≤ c.toNat ∧ c.toNat ≤ 57) ∨ c = '+' ∨ c = '-' ∨ c = '.' then
      if i = 0 then .ok ([], rawURL) else getSchemeAux rawURL (i + 1) cs
    else if c = ':' then
      if i = 0 then .error (.urlError "parse" (String.mk rawURL) "missing protocol scheme")
      else .ok (rawURL.take i, rawURL.drop (i + 1))
    else .ok ([], rawURL)

/-- The function `getScheme`, applied to the URL with its fragment cut off. -/
def getScheme (rawURL : String) : Except GoError (List Char × List Char) :=
  let u := rawURL.data.takeWhile (fun c => c != '#')
  getSchemeAux u 0 u

/-- The test `stringContainsCTLByte`: some byte is below the space or is 0x7f. -/
def stringContainsCTLByte (s : List Char) : Bool :=
  s.any fun c => c.toNat < 0x20 || c.toNat = 0x7f

/-- The call `http.NewRequest(method, url, body)`: the URL must parse.  `url.Parse`
cuts the fragment off, rejects a control character, then reads the scheme. -/
def NewRequest (env : Env) (method url body : String) : Except GoError Request :=
  let u := url.data.takeWhile (fun c => c != '#')
  if stringContainsCTLByte u then
    .error (.urlError "parse" (String.mk u) "net/url: invalid control character in URL")
  else
    match getScheme url with
    | .error err => .error err
    | .ok _ =>
      match env.urlCheck url with
      | some err => .error err
      | none => .ok ⟨method, url, [], body⟩

/-- Calls that `send` makes, in the order in which it makes them. -/
inductive Event where
  | jsonMarshal (msg : Message)
  | newRequest (method url body : String)
  | clientDo (req : Request)
  /-- A request that the `Do` call put through the transport. -/
  | roundTrip (req : Request)
  | readAll
  | jsonUnmarshal (data : String)
  | bodyClose
deriving DecidableEq, Repr

/-! ## The robot -/

/-- The struct `Robot`; a nil `hclient` is `none`. -/
structure Robot where
  webHook : String
  secret : String
  hclient : Option Client

/-- The function `NewRobot`. -/
def NewRobot (webHook : String) : Robot :=
  ⟨webHook, "", none⟩

/-- The method `SetSecret`. -/
def Robot.SetSecret (r : Robot) (secret : String) : Robot :=
  { r with secret := secret }

/-- The method `SetHTTPClient`. -/
def Robot.SetHTTPClient (r : Robot) (hl : Option Client) : Robot :=
  { r with hclient := hl }

/-- The local `webURL` of `send`: the web hook, followed by the signed suffix when
a secret is set. -/
def webURL (env : Env) (r : Robot) : String :=
  if len r.secret != 0 then r.webHook ++ genSignedURL env.unixNano r.secret else r.webHook

/-- The local `httpcl` of `send`: the robot's client when one is set, else the default one. -/
def httpcl (env : Env) (r : Robot) : Client :=
  match r.hclient with
  | some cl => cl
  | none => env.DefaultClient

/-- The request `send` hands to the client, for the marshalled payload `m`: the
result of `http.NewRequest` with its header replaced. -/
def sentRequest (env : Env) (r : Robot) (m : String) : Request :=
  ⟨"POST", webURL env r, [("content-type", ["application/json"])], m⟩

/-- The calls of a run of `send` up to the return of `Do`, for the marshalled
payload `m`: marshalling, request construction, the `Do` call and its round trips. -/
def doTrace (env : Env) (r : Robot) (msg : Message) (m : String) : List Event :=
  [.jsonMarshal msg, .newRequest "POST" (webURL env r) m, .clientDo (sentRequest env r m)] ++
    (httpcl env r (sentRequest env r m)).roundTrips.map .roundTrip

/-- The method `send`: the returned error (`none` is nil) and the calls made. -/
def send (env : Env) (r : Robot) (msg : Message) : Option GoError × List Event :=
  match env.jsonMarshal msg with
  | .error err => (some err, [.jsonMarshal msg])
  | .ok m =>
    let webURL := webURL env r
    let t1 := [Event.jsonMarshal msg, .newRequest "POST" webURL m]
    match NewRequest env "POST" webURL m with
    | .error err => (some err, t1)
    | .ok req0 =>
      let req := { req0 with Header := [("content-type", ["application/json"])] }
      let ex := httpcl env r req
      let t2 := t1 ++ .clientDo req :: ex.roundTrips.map .roundTrip
      match ex.result with
      | .error err => (some err, t2)
      | .ok resp =>
        match resp.Body with
        | .error err => (some err, t2 ++ [.readAll, .bodyClose])
        | .ok data =>
          let t3 := t2 ++ [.readAll, .jsonUnmarshal data, .bodyClose]
          match jsonUnmarshal data with
          | .error err => (some err, t3)
          | .ok dr =>
            if dr.Errcode != 0 then
              (some (.errorString (Sprintf "dingrobot send failed: %v" [.str dr.Errmsg])), t3)
            else (none, t3)

/-- The method `SendText`. -/
def SendText (env : Env) (r : Robot) (content : String) (atMobiles : Option (List String))
    (isAtAll : Bool) : Option GoError × List Event :=
  send env r (.text {
    MsgType := msgTypeText
    Text := { Content := content }
    At := { AtMobiles := atMobiles, IsAtAll := isAtAll } })

/-- The method `SendLink`. -/
def SendLink (env : Env) (r : Robot) (title text messageURL picURL : String) :
    Option GoError × List Event :=
  send env r (.link {
    MsgType := msgTypeLink
    Link := { Title := title, Text := text, MessageURL := messageURL, PicURL := picURL } })

/-- The method `SendMarkdown`. -/
def SendMarkdown (env : Env) (r : Robot) (title text : String) (atMobiles : Option (List String))
    (isAtAll : Bool) : Option GoError × List Event :=
  send env r (.markdown {
    MsgType := msgTypeMarkdown
    Markdown := { Title := title, Text := text }
    At := { AtMobiles := atMobiles, IsAtAll := isAtAll } })

/-- The method `SendActionCard`. -/
def SendActionCard (env : Env) (r : Robot)
    (title text singleTitle singleURL btnOrientation hideAvatar : String) :
    Option GoError × List Event :=
  send env r (.actionCard {
    MsgType := msgTypeActionCard
    ActionCard := {
      Title := title, Text := text, SingleTitle := singleTitle, SingleURL := singleURL,
      BtnOrientation := btnOrientation, HideAvatar := hideAvatar } })

/-! ## Observations on a run of `send` -/

/-- The request of a `Do` call. -/
def Event.request? : Event → Option Request
  | .clientDo req => some req
  | _ => none

/-- The requests handed to the client during a run, in order. -/
def requests (trace : List Event) : List Request :=
  trace.filterMap Event.request?

/-- The request of a round trip. -/
def Event.outbound? : Event → Option Request
  | .roundTrip req => some req
  | _ => none

/-- The outbound HTTP requests of a run: those put through the transport, in order. -/
def outbound (trace : List Event) : List Request :=
  trace.filterMap Event.outbound?

/-! ## Query strings -/

/-- ASCII letter or digit. -/
def isAlnum (c : Char) : Bool :=
  (97 ≤ c.toNat && c.toNat ≤ 122) || (65 ≤ c.toNat && c.toNat ≤ 90) || (48 ≤ c.toNat && c.toNat ≤ 57)

/-- Splitting of a character list at every occurrence of `sep`. -/
def splitOnChar (sep : Char) : List Char → List (List Char)
  | [] => [[]]
  | c :: cs =>
    if c = sep then [] :: splitOnChar sep cs
    else match splitOnChar sep cs with
      | [] => [[c]]
      | seg :: segs => (c :: seg) :: segs

/-- Cut of a `key=value` setting at its first `=`. -/
def cutEq (seg : List Char) : List Char × List Char :=
  (seg.takeWhile (fun c => c != '='), (seg.dropWhile (fun c => c != '=')).drop 1)

/-- The settings a query string splits into: the pieces between `&`, empty
pieces skipped, each cut at its first `=` (values still escaped). -/
def queryParams (q : List Char) : List (List Char × List Char) :=
  ((splitOnChar '&' q).filter (fun seg => !seg.isEmpty)).map cutEq

/-- Value denoted by a list of decimal digit characters. -/
def digitsValue (ds : List Char) : Nat :=
  ds.foldl (fun a c => a * 10 + (c.toNat - 48)) 0

/-! ## A concrete outside world, for evaluating `send` -/

/-- A client that answers every request with status 200 and the given body,
in one round trip. -/
def cannedClient (body : String) : Client :=
  fun req => ⟨[req], .ok ⟨200, .ok body⟩⟩

/-- A client whose `Do` fails with the given error, its one round trip having failed. -/
def failingClient (err : GoError) : Client :=
  fun req => ⟨[req], .error err⟩

/-- A client whose server answers the first request with status 307 and the
location `location`: `Do` sends the request again, to that URL, and returns
the answer, status 200 with the given body. -/
def redirectedClient (location body : String) : Client :=
  fun req => ⟨[req, { req with URL := location }], .ok ⟨200, .ok body⟩⟩

/-- An outside world for evaluation: the clock reads 1577808000000123456 ns, the
marshalled payload is a stand-in that holds the discriminator alone, every URL
passes the remaining checks, and the default client answers with `body`. -/
def sampleEnv (body : String) : Env where
  unixNano := 1577808000000123456
  jsonMarshal := fun m => .ok ("\x7b\"msgtype\":\"" ++ m.msgType ++ "\"\x7d")
  urlCheck := fun _ => none
  DefaultClient := cannedClient body

/-- The robot of the repository's test: its web hook, no secret, no client. -/
def sampleRobot : Robot :=
  NewRobot "https://oapi.dingtalk.com/robot/send?access_token=xxxxx"

/-- The same robot with a secret set. -/
def signedRobot : Robot :=
  sampleRobot.SetSecret "SECabc"

/-- A text message. -/
def sampleMessage : Message :=
  .text ⟨msgTypeText, ⟨"hi"⟩, ⟨none, false⟩⟩

/-- The request `send` posts for `signedRobot` and `sampleMessage` in `sampleEnv`. -/
def signedRequest : Request :=
  ⟨"POST", "https://oapi.dingtalk.com/robot/send?access_token=xxxxx&timestamp=1577808000000&sign=d8MiemiW5bT%2FXT2zgWrhyRQdANlJ4zkTa39rkwaldRU%3D",
   [("content-type", ["application/json"])], "\x7b\"msgtype\":\"text\"\x7d"⟩

/-- The request `send` posts for `sampleRobot` and `sampleMessage` in `sampleEnv`. -/
def sampleRequest : Request :=
  ⟨"POST", "https://oapi.dingtalk.com/robot/send?access_token=xxxxx",
   [("content-type", ["application/json"])], "\x7b\"msgtype\":\"text\"\x7d"⟩

/-- The robot of the test with a client that cannot connect. -/
def refusedRobot : Robot :=
  sampleRobot.SetHTTPClient (some (failingClient (.other "connection refused")))

/-- The robot of the test with a client whose server redirects once. -/
def redirectedRobot : Robot :=
  sampleRobot.SetHTTPClient
    (some (redirectedClient "https://oapi.dingtalk.com/robot/send2?access_token=xxxxx"
      "\x7b\"errcode\":0,\"errmsg\":\"\"\x7d"))

/-- The response body of a successful post. -/
def okBody : String := "\x7b\"errcode\":0,\"errmsg\":\"\"\x7d"

/-- The response body for an unknown access token. -/
def rejectedBody : String := "\x7b\"errcode\":300001,\"errmsg\":\"token is not exist\"\x7d"

/-! ## Theorems -/

theorem Sprintf_d (i : Int) : Sprintf "%d" [.int i] = formatInt i := by
  show formatVerb 'd' (.int i) ++ extraArgs [] = formatInt i
  simp [formatVerb, extraArgs]

theorem Sprintf_sign (a b : String) : Sprintf "%s\n%s" [.str a, .str b] = a ++ "\n" ++ b := by
  show a ++ (String.singleton '\n' ++ (b ++ "")) = _
  simp [String.append_assoc]
  rfl

theorem Sprintf_suffix (a b : String) :
    Sprintf "&timestamp=%s&sign=%s" [.str a, .str b] = "&timestamp=" ++ a ++ "&sign=" ++ b := by
  apply String.ext
  simp only [Sprintf, sprintfAux, formatVerb, extraArgs, String.data_append]
  simp

theorem Sprintf_failed (a : String) :
    Sprintf "dingrobot send failed: %v" [.str a] = "dingrobot send failed: " ++ a := by
  apply String.ext
  simp only [Sprintf, sprintfAux, formatVerb, extraArgs, String.data_append, Arg.render]
  simp

theorem digitChar_toNat (d : Nat) (h : d < 10) : (digitChar d).toNat = 48 + d := by
  interval_cases d <;> rfl

theorem digitChar_isDigit (d : Nat) (h : d < 10) : isDigit (digitChar d) = true := by
  interval_cases d <;> rfl

theorem decDigits_isDigit (fuel n : Nat) : ∀ c ∈ decDigits fuel n, isDigit c = true := by
  induction fuel generalizing n with
  | zero => intro c hc; simp [decDigits] at hc
  | succ f ih =>
    intro c hc
    unfold decDigits at hc
    split at hc
    · rename_i h
      simp at hc; subst hc; exact digitChar_isDigit n h
    · simp at hc
      rcases hc with hc | hc
      · exact ih _ c hc
      · subst hc; exact digitChar_isDigit _ (Nat.mod_lt _ (by norm_num))

theorem digitsValue_append_single (ds : List Char) (c : Char) :
    digitsValue (ds ++ [c]) = digitsValue ds * 10 + (c.toNat - 48) := by
  simp [digitsValue, List.foldl_append]

theorem digitsValue_decDigits (fuel n : Nat) (h : n < fuel) : digitsValue (decDigits fuel n) = n := by
  induction fuel generalizing n with
  | zero => omega
  | succ f ih =>
    unfold decDigits
    split
    · rename_i h10
      simp [digitsValue, digitChar_toNat n h10]
    · rename_i h10
      rw [digitsValue_append_single, ih (n / 10) (by omega),
        digitChar_toNat _ (Nat.mod_lt _ (by norm_num))]
      omega

theorem formatNat_injective {a b : Nat} (h : formatNat a = formatNat b) : a = b := by
  have ha := digitsValue_decDigits (a + 1) a (by omega)
  have hb := digitsValue_decDigits (b + 1) b (by omega)
  unfold formatNat at h
  rw [h] at ha
  omega

theorem minus_not_digit : isDigit '-' = false := by rfl

theorem formatInt_injective {i j : Int} (h : formatInt i = formatInt j) : i = j := by
  unfold formatInt at h
  by_cases hi : i < 0 <;> by_cases hj : j < 0 <;> simp only [hi, hj, if_true, if_false] at h
  · have := formatNat_injective (List.cons.inj (congrArg String.data h)).2
    omega
  · have h1 : '-' :: formatNat i.natAbs = formatNat j.natAbs := congrArg String.data h
    have := decDigits_isDigit (j.natAbs + 1) j.natAbs '-' (by
      unfold formatNat at h1; rw [← h1]; simp)
    simp [minus_not_digit] at this
  · have h1 : formatNat i.natAbs = '-' :: formatNat j.natAbs := congrArg String.data h
    have := decDigits_isDigit (i.natAbs + 1) i.natAbs '-' (by
      unfold formatNat at h1; rw [h1]; simp)
    simp [minus_not_digit] at this
  · have := formatNat_injective (congrArg String.data h)
    omega

theorem int64Div_add_million (n : Int) (h : ¬(-1000000 < n ∧ n < 0)) :
    int64Div (n + 1000000) 1000000 = int64Div n 1000000 + 1 := by
  unfold int64Div
  by_cases hn : 0 ≤ n
  · rw [Int.tdiv_eq_ediv (by omega) (by norm_num), Int.tdiv_eq_ediv hn (by norm_num)]
    omega
  · have hle : n ≤ -1000000 := by omega
    have e1 : (n + 1000000).tdiv 1000000 = -((-(n + 1000000)).tdiv 1000000) := by
      rw [Int.neg_tdiv, neg_neg]
    have e2 : n.tdiv 1000000 = -((-n).tdiv 1000000) := by
      rw [Int.neg_tdiv, neg_neg]
    rw [e1, e2, Int.tdiv_eq_ediv (by omega) (by norm_num), Int.tdiv_eq_ediv (by omega) (by norm_num)]
    omega

theorem beBytes_length (n v : Nat) : (beBytes n v).length = n := by
  induction n with
  | zero => rfl
  | succ k ih => simp [beBytes, ih]

theorem sha256Sum_length (msg : List Nat) : (sha256Sum msg).length = 32 := by
  simp [sha256Sum, Digest.bytes, beBytes_length]

theorem hmacSha256_length (key msg : List Nat) : (hmacSha256 key msg).length = 32 := by
  simp [hmacSha256, sha256Sum_length]

theorem b64Char_mem (i : Nat) : b64Char (i &&& 0x3F) ∈ encodeStd := by
  have h : i &&& 0x3F < 64 := Nat.and_lt_two_pow i (by norm_num : 0x3F < 2 ^ 6)
  have key : ∀ j, j < 64 → b64Char j ∈ encodeStd := by decide
  exact key _ h

theorem base64StdEncode_cons3 (a b c : Nat) (rest : List Nat) :
    ∃ q : List Char, q.length = 4 ∧ (∀ x ∈ q, x ∈ encodeStd) ∧
      base64StdEncode (a :: b :: c :: rest) = q ++ base64StdEncode rest := by
  refine ⟨[b64Char ((((a <<< 16) ||| (b <<< 8) ||| c) >>> 18) &&& 0x3F),
       b64Char ((((a <<< 16) ||| (b <<< 8) ||| c) >>> 12) &&& 0x3F),
       b64Char ((((a <<< 16) ||| (b <<< 8) ||| c) >>> 6) &&& 0x3F),
       b64Char (((a <<< 16) ||| (b <<< 8) ||| c) &&& 0x3F)], rfl, ?_, by simp [base64StdEncode]⟩
  intro x hx
  simp only [List.mem_cons, List.mem_singleton, List.not_mem_nil, or_false] at hx
  rcases hx with h | h | h | h <;> subst h <;> exact b64Char_mem _

theorem base64StdEncode_two (a b : Nat) :
    ∃ q : List Char, q.length = 3 ∧ (∀ x ∈ q, x ∈ encodeStd) ∧
      base64StdEncode [a, b] = q ++ ['='] := by
  refine ⟨[b64Char ((((a <<< 16) ||| (b <<< 8)) >>> 18) &&& 0x3F),
       b64Char ((((a <<< 16) ||| (b <<< 8)) >>> 12) &&& 0x3F),
       b64Char ((((a <<< 16) ||| (b <<< 8)) >>> 6) &&& 0x3F)], rfl, ?_, by simp [base64StdEncode]⟩
  intro x hx
  simp only [List.mem_cons, List.mem_singleton, List.not_mem_nil, or_false] at hx
  rcases hx with h | h | h <;> subst h <;> exact b64Char_mem _

theorem base64_shape (k : Nat) : ∀ l : List Nat, l.length = 3 * k + 2 →
    ∃ body, base64StdEncode l = body ++ ['='] ∧ body.length = 4 * k + 3 ∧
      ∀ c ∈ body, c ∈ encodeStd := by
  induction k with
  | zero =>
    intro l hl
    match l, hl with
    | [a, b], _ =>
      obtain ⟨q, hq, hm, he⟩ := base64StdEncode_two a b
      exact ⟨q, he, by simp [hq], hm⟩
  | succ k ih =>
    intro l hl
    match l, hl with
    | a :: b :: c :: rest, hl =>
      obtain ⟨body, hb, hlen, hmem⟩ := ih rest (by simp at hl; omega)
      obtain ⟨q, hq, hm, he⟩ := base64StdEncode_cons3 a b c rest
      refine ⟨q ++ body, ?_, ?_, ?_⟩
      · rw [he, hb, List.append_assoc]
      · simp [hlen, hq]; omega
      · intro x hx
        rw [List.mem_append] at hx
        rcases hx with h | h
        · exact hm x h
        · exact hmem x h

/-- Characters left by the escaping of one Base64 character. -/
theorem escape_b64 : ∀ c ∈ '=' :: encodeStd,
    ∀ x ∈ (utf8EncodeChar c).flatMap escapeByte, isAlnum x = true ∨ x = '%' := by
  decide

theorem QueryEscape_data (l : List Char) :
    (QueryEscape (String.mk l)).data = l.flatMap fun c => (utf8EncodeChar c).flatMap escapeByte := by
  simp [QueryEscape, stringBytes, List.flatMap_assoc]

theorem computeHmacSha256_shape (message secret : String) :
    ∃ body, (computeHmacSha256 message secret).data = body ++ ['='] ∧ body.length = 43 ∧
      ∀ c ∈ body, c ∈ encodeStd := by
  obtain ⟨body, h1, h2, h3⟩ := base64_shape 10 (hmacSha256 (stringBytes secret) (stringBytes message))
    (hmacSha256_length _ _)
  exact ⟨body, by simp [computeHmacSha256, h1], h2, h3⟩

theorem eq_not_mem_encodeStd : '=' ∉ encodeStd := by decide

theorem QueryEscape_sign_chars (message secret : String) :
    ∀ x ∈ (QueryEscape (computeHmacSha256 message secret)).data, isAlnum x = true ∨ x = '%' := by
  obtain ⟨body, h1, _, h3⟩ := computeHmacSha256_shape message secret
  intro x hx
  have e : computeHmacSha256 message secret = String.mk (body ++ ['=']) := String.ext h1
  rw [e, QueryEscape_data, List.mem_flatMap] at hx
  obtain ⟨c, hc, hxc⟩ := hx
  apply escape_b64 c _ x hxc
  rw [List.mem_append] at hc
  rcases hc with h | h
  · exact List.mem_cons_of_mem _ (h3 c h)
  · simp at h; simp [h]

theorem timeStr_eq (n : Int) : timeStr n = formatInt (int64Div n 1000000) := Sprintf_d _

theorem formatInt_chars (i : Int) : ∀ c ∈ (formatInt i).data, c = '-' ∨ isDigit c = true := by
  intro c hc
  unfold formatInt at hc
  split at hc
  · simp only [List.mem_cons] at hc
    rcases hc with h | h
    · exact Or.inl h
    · exact Or.inr (decDigits_isDigit _ _ c h)
  · exact Or.inr (decDigits_isDigit _ _ c hc)

theorem genSignedURL_eq (n : Int) (s : String) :
    genSignedURL n s = "&timestamp=" ++ timeStr n ++ "&sign=" ++
      QueryEscape (computeHmacSha256 (timeStr n ++ "\n" ++ s) s) := by
  simp only [genSignedURL, Sprintf_suffix, Sprintf_sign]

theorem splitOnChar_not_mem (sep : Char) (a : List Char) (h : sep ∉ a) :
    splitOnChar sep a = [a] := by
  induction a with
  | nil => rfl
  | cons c cs ih =>
    have hc : c ≠ sep := fun e => h (by simp [e])
    have hcs : sep ∉ cs := fun e => h (List.mem_cons_of_mem _ e)
    simp [splitOnChar, hc, ih hcs]

theorem splitOnChar_append (sep : Char) (a b : List Char) (h : sep ∉ a) :
    splitOnChar sep (a ++ sep :: b) = a :: splitOnChar sep b := by
  induction a with
  | nil => simp [splitOnChar]
  | cons c cs ih =>
    have hc : c ≠ sep := fun e => h (by simp [e])
    have hcs : sep ∉ cs := fun e => h (List.mem_cons_of_mem _ e)
    simp [splitOnChar, hc, ih hcs]

theorem cutEq_append (k v : List Char) (h : '=' ∉ k) : cutEq (k ++ '=' :: v) = (k, v) := by
  induction k with
  | nil => simp [cutEq, List.takeWhile, List.dropWhile]
  | cons c cs ih =>
    have hc : c ≠ '=' := fun e => h (by simp [e])
    have hcs : '=' ∉ cs := fun e => h (List.mem_cons_of_mem _ e)
    have := ih hcs
    simp only [cutEq, Prod.mk.injEq] at this ⊢
    have hb : (c != '=') = true := by simpa using hc
    simp only [List.cons_append, List.takeWhile_cons, List.dropWhile_cons, hb, if_true]
    exact ⟨by rw [this.1], this.2⟩

theorem queryParams_two (k1 v1 k2 v2 : List Char)
    (hk1 : k1 ≠ []) (hk2 : k2 ≠ [])
    (h1 : '&' ∉ k1 ∧ '=' ∉ k1) (h2 : '&' ∉ v1) (h3 : '&' ∉ k2 ∧ '=' ∉ k2) (h4 : '&' ∉ v2) :
    queryParams ('&' :: (k1 ++ '=' :: v1) ++ '&' :: (k2 ++ '=' :: v2)) = [(k1, v1), (k2, v2)] := by
  have ha : '&' ∉ k1 ++ '=' :: v1 := by
    simp only [List.mem_append, List.mem_cons, not_or]
    exact ⟨h1.1, by decide, h2⟩
  have hb : '&' ∉ k2 ++ '=' :: v2 := by
    simp only [List.mem_append, List.mem_cons, not_or]
    exact ⟨h3.1, by decide, h4⟩
  have e : splitOnChar '&' ('&' :: (k1 ++ '=' :: v1) ++ '&' :: (k2 ++ '=' :: v2)) =
      [[], k1 ++ '=' :: v1, k2 ++ '=' :: v2] := by
    have : '&' :: (k1 ++ '=' :: v1) ++ '&' :: (k2 ++ '=' :: v2) =
        [] ++ '&' :: ((k1 ++ '=' :: v1) ++ '&' :: (k2 ++ '=' :: v2)) := by simp
    rw [this, splitOnChar_append _ _ _ (by simp), splitOnChar_append _ _ _ ha,
      splitOnChar_not_mem _ _ hb]
  unfold queryParams
  rw [e]
  have n1 : (k1 ++ '=' :: v1).isEmpty = false := by cases k1 <;> simp_all
  have n2 : (k2 ++ '=' :: v2).isEmpty = false := by cases k2 <;> simp_all
  simp [List.filter, n1, n2, cutEq_append _ _ h1.2, cutEq_append _ _ h3.2]

theorem alnum_or_percent_ne {x : Char} (h : isAlnum x = true ∨ x = '%') :
    x ≠ '+' ∧ x ≠ '/' ∧ x ≠ '=' ∧ x ≠ '&' ∧ x ≠ ' ' := by
  refine ⟨?_, ?_, ?_, ?_, ?_⟩ <;> intro e <;> subst e <;> revert h <;> decide

theorem digit_or_minus_ne {x : Char} (h : x = '-' ∨ isDigit x = true) : x ≠ '=' ∧ x ≠ '&' := by
  refine ⟨?_, ?_⟩ <;> intro e <;> subst e <;> revert h <;> decide

set_option maxRecDepth 100000 in
/-- The checksum of "abc", as published with the algorithm. -/
theorem sha256Sum_abc : sha256Sum (stringBytes "abc") =
    [0xBA, 0x78, 0x16, 0xBF, 0x8F, 0x01, 0xCF, 0xEA, 0x41, 0x41, 0x40, 0xDE, 0x5D, 0xAE, 0x22, 0x23,
     0xB0, 0x03, 0x61, 0xA3, 0x96, 0x17, 0x7A, 0x9C, 0xB4, 0x10, 0xFF, 0x61, 0xF2, 0x00, 0x15, 0xAD] := by
  decide

set_option maxRecDepth 100000 in
/-- The suffix for the secret "SECabc" at 1577808000000 ms. -/
theorem genSignedURL_example : genSignedURL 1577808000000123456 "SECabc" =
    "&timestamp=1577808000000&sign=d8MiemiW5bT%2FXT2zgWrhyRQdANlJ4zkTa39rkwaldRU%3D" := by
  decide

/-- C1: for every secret and every clock reading whose millisecond timestamp is `T`,
the suffix of `genSignedURL` is `&timestamp=` + decimal(T) + `&sign=` + the query-escaped
Base64 of the HMAC-SHA256, keyed by the bytes of the secret, of decimal(T) + newline + secret;
any two readings with the same timestamp give the same suffix. -/
theorem genSignedURL_spec (secret : String) (T unixNano : Int)
    (hT : int64Div unixNano 1000000 = T) :
    genSignedURL unixNano secret =
      "&timestamp=" ++ formatInt T ++ "&sign=" ++
        QueryEscape (String.mk (base64StdEncode
          (hmacSha256 (stringBytes secret) (stringBytes (formatInt T ++ "\n" ++ secret)))))
    ∧ ∀ unixNano2 : Int, int64Div unixNano2 1000000 = T →
        genSignedURL unixNano2 secret = genSignedURL unixNano secret := by
  constructor
  · rw [genSignedURL_eq, timeStr_eq, hT]
    rfl
  · intro m hm
    rw [genSignedURL_eq, genSignedURL_eq, timeStr_eq, timeStr_eq, hT, hm]

/-- Witness for C1: the reading 1577808000000123456 ns has timestamp 1577808000000. -/
theorem genSignedURL_spec_witness :
    int64Div 1577808000000123456 1000000 = 1577808000000 ∧
    (genSignedURL 1577808000000123456 "SECabc" =
      "&timestamp=" ++ formatInt 1577808000000 ++ "&sign=" ++
        QueryEscape (String.mk (base64StdEncode
          (hmacSha256 (stringBytes "SECabc") (stringBytes (formatInt 1577808000000 ++ "\n" ++ "SECabc")))))
    ∧ ∀ unixNano2 : Int, int64Div unixNano2 1000000 = 1577808000000 →
        genSignedURL unixNano2 "SECabc" = genSignedURL 1577808000000123456 "SECabc") :=
  ⟨by decide, genSignedURL_spec "SECabc" 1577808000000 1577808000000123456 (by decide)⟩

/-- C8: for every secret and every two clock readings one millisecond apart,
`n` and `n + 1000000` nanoseconds since the epoch, the timestamp strings that
`genSignedURL` derives from them (the reading divided by `1e6`, printed in
decimal, and placed after `&timestamp=` in the suffix) are different. -/
theorem timeStr_distinct (secret : String) (n : Int) (h : 0 ≤ n) :
    timeStr n ≠ timeStr (n + 1000000) ∧
    genSignedURL n secret = "&timestamp=" ++ timeStr n ++ "&sign=" ++
      QueryEscape (computeHmacSha256 (timeStr n ++ "\n" ++ secret) secret) ∧
    genSignedURL (n + 1000000) secret = "&timestamp=" ++ timeStr (n + 1000000) ++ "&sign=" ++
      QueryEscape (computeHmacSha256 (timeStr (n + 1000000) ++ "\n" ++ secret) secret) := by
  refine ⟨?_, genSignedURL_eq n secret, genSignedURL_eq (n + 1000000) secret⟩
  intro e
  rw [timeStr_eq, timeStr_eq, int64Div_add_million n (by omega)] at e
  have := formatInt_injective e
  omega

/-- Witness for C8: the reading 1577808000000123456 ns. -/
theorem timeStr_distinct_witness :
    (0 : Int) ≤ 1577808000000123456 ∧
    timeStr 1577808000000123456 ≠ timeStr (1577808000000123456 + 1000000) :=
  ⟨by decide, (timeStr_distinct "SECabc" 1577808000000123456 (by decide)).1⟩

/-- C10: the Base64 signature has 44 characters, ends in `=` and contains `=` once;
its escaped form holds only ASCII letters, digits and `%`; the suffix contains exactly
two `&` and two `=` and splits into the two settings `timestamp` and `sign`. -/
theorem genSignedURL_shape (unixNano : Int) (secret : String) :
    ((computeHmacSha256 (timeStr unixNano ++ "\n" ++ secret) secret).data.length = 44 ∧
      (computeHmacSha256 (timeStr unixNano ++ "\n" ++ secret) secret).data.getLast? = some '=' ∧
      (computeHmacSha256 (timeStr unixNano ++ "\n" ++ secret) secret).data.count '=' = 1) ∧
    (∀ c ∈ (QueryEscape (computeHmacSha256 (timeStr unixNano ++ "\n" ++ secret) secret)).data,
      (isAlnum c = true ∨ c = '%') ∧ c ≠ '+' ∧ c ≠ '/' ∧ c ≠ '=' ∧ c ≠ '&' ∧ c ≠ ' ') ∧
    (genSignedURL unixNano secret).data.count '&' = 2 ∧
    (genSignedURL unixNano secret).data.count '=' = 2 ∧
    queryParams (genSignedURL unixNano secret).data =
      [("timestamp".data, (timeStr unixNano).data),
       ("sign".data, (QueryEscape (computeHmacSha256 (timeStr unixNano ++ "\n" ++ secret) secret)).data)] := by
  obtain ⟨body, hb, hlen, hmem⟩ := computeHmacSha256_shape (timeStr unixNano ++ "\n" ++ secret) secret
  have hS := QueryEscape_sign_chars (timeStr unixNano ++ "\n" ++ secret) secret
  have hT : ∀ c ∈ (timeStr unixNano).data, c ≠ '=' ∧ c ≠ '&' := by
    intro c hc
    rw [timeStr_eq] at hc
    exact digit_or_minus_ne (formatInt_chars _ c hc)
  have hT1 : '&' ∉ (timeStr unixNano).data := fun h => (hT _ h).2 rfl
  have hT2 : '=' ∉ (timeStr unixNano).data := fun h => (hT _ h).1 rfl
  have hS1 : '&' ∉ (QueryEscape (computeHmacSha256 (timeStr unixNano ++ "\n" ++ secret) secret)).data :=
    fun h => (alnum_or_percent_ne (hS _ h)).2.2.2.1 rfl
  have hS2 : '=' ∉ (QueryEscape (computeHmacSha256 (timeStr unixNano ++ "\n" ++ secret) secret)).data :=
    fun h => (alnum_or_percent_ne (hS _ h)).2.2.1 rfl
  have hbody : '=' ∉ body := fun h => eq_not_mem_encodeStd (hmem _ h)
  have hdata : (genSignedURL unixNano secret).data =
      '&' :: ("timestamp".data ++ '=' :: (timeStr unixNano).data) ++
      '&' :: ("sign".data ++ '=' ::
        (QueryEscape (computeHmacSha256 (timeStr unixNano ++ "\n" ++ secret) secret)).data) := by
    rw [genSignedURL_eq]
    simp [String.data_append]
  refine ⟨⟨?_, ?_, ?_⟩, ?_, ?_, ?_, ?_⟩
  · rw [hb]; simp [hlen]
  · rw [hb]; simp
  · rw [hb, List.count_append, List.count_eq_zero.mpr hbody]; rfl
  · intro c hc
    exact ⟨hS c hc, alnum_or_percent_ne (hS c hc)⟩
  · rw [hdata]
    simp only [List.count_append, List.count_cons, List.count_eq_zero.mpr hT1,
      List.count_eq_zero.mpr hS1]
    decide
  · rw [hdata]
    simp only [List.count_append, List.count_cons, List.count_eq_zero.mpr hT2,
      List.count_eq_zero.mpr hS2]
    decide
  · rw [hdata]
    exact queryParams_two _ _ _ _ (by decide) (by decide) (by decide) hT1 (by decide) hS1

theorem utf8EncodeChar_ne_nil (c : Char) : utf8EncodeChar c ≠ [] := by
  unfold utf8EncodeChar
  simp only
  split_ifs <;> simp

theorem len_eq_zero_iff (s : String) : len s = 0 ↔ s = "" := by
  constructor
  · intro h
    apply String.ext
    cases hd : s.data with
    | nil => rfl
    | cons c cs =>
      exfalso
      have hc := utf8EncodeChar_ne_nil c
      simp only [len, stringBytes, hd, List.flatMap_cons, List.length_append] at h
      cases hu : utf8EncodeChar c with
      | nil => exact hc hu
      | cons a as => rw [hu] at h; simp at h
  · intro h; subst h; rfl

theorem webURL_eq (env : Env) (r : Robot) :
    webURL env r = if r.secret = "" then r.webHook
      else r.webHook ++ genSignedURL env.unixNano r.secret := by
  unfold webURL
  by_cases h : r.secret = ""
  · have := (len_eq_zero_iff r.secret).mpr h
    rw [if_pos h]
    simp [this]
  · have : len r.secret ≠ 0 := fun e => h ((len_eq_zero_iff _).mp e)
    simp [h, this]

theorem NewRequest_ok {env : Env} {method url body : String} {req : Request}
    (h : NewRequest env method url body = .ok req) : req = ⟨method, url, [], body⟩ := by
  unfold NewRequest at h
  simp only at h
  split at h
  · cases h
  · split at h
    · cases h
    · split at h
      · cases h
      · cases h; rfl

theorem NewRequest_colon (env : Env) (body : String) :
    NewRequest env "POST" ":" body = .error (.urlError "parse" ":" "missing protocol scheme") := by
  rfl

theorem NewRequest_control (env : Env) (body : String) :
    NewRequest env "POST" ":\x7f" body =
      .error (.urlError "parse" ":\x7f" "net/url: invalid control character in URL") := by
  rfl

/-- The outcomes of `send`, one per exit of the function. -/
theorem send_cases (env : Env) (r : Robot) (msg : Message) :
    (∃ err, env.jsonMarshal msg = .error err ∧ send env r msg = (some err, [.jsonMarshal msg])) ∨
    (∃ m, env.jsonMarshal msg = .ok m ∧
      ((∃ err, NewRequest env "POST" (webURL env r) m = .error err ∧
          send env r msg = (some err, [.jsonMarshal msg, .newRequest "POST" (webURL env r) m])) ∨
       (∃ req0, NewRequest env "POST" (webURL env r) m = .ok req0 ∧
        ((∃ err, (httpcl env r (sentRequest env r m)).result = .error err ∧
            send env r msg = (some err, doTrace env r msg m)) ∨
         (∃ resp, (httpcl env r (sentRequest env r m)).result = .ok resp ∧
          ((∃ err, resp.Body = .error err ∧
              send env r msg = (some err, doTrace env r msg m ++ [.readAll, .bodyClose])) ∨
           (∃ data, resp.Body = .ok data ∧
              send env r msg =
                ((match jsonUnmarshal data with
                  | .error err => some err
                  | .ok dr => if dr.Errcode != 0 then
                      some (.errorString ("dingrobot send failed: " ++ dr.Errmsg)) else none),
                 doTrace env r msg m ++
                  [.readAll, .jsonUnmarshal data, .bodyClose])))))))) := by
  unfold send
  cases hm : env.jsonMarshal msg with
  | error err => exact Or.inl ⟨err, rfl, rfl⟩
  | ok m =>
    refine Or.inr ⟨m, rfl, ?_⟩
    cases hr : NewRequest env "POST" (webURL env r) m with
    | error err => exact Or.inl ⟨err, rfl, by simp [hr]⟩
    | ok req0 =>
      refine Or.inr ⟨req0, rfl, ?_⟩
      have hreq : { req0 with Header := [("content-type", ["application/json"])] } =
          sentRequest env r m := by
        rw [NewRequest_ok hr]; rfl
      simp only [hr, hreq]
      cases hd : (httpcl env r (sentRequest env r m)).result with
      | error err => exact Or.inl ⟨err, rfl, by simp [doTrace]⟩
      | ok resp =>
        refine Or.inr ⟨resp, rfl, ?_⟩
        cases hb : resp.Body with
        | error err => exact Or.inl ⟨err, rfl, by simp [hb, doTrace]⟩
        | ok data =>
          refine Or.inr ⟨data, rfl, ?_⟩
          cases hu : jsonUnmarshal data with
          | error err => simp [hb, hu, doTrace]
          | ok dr =>
            simp only [hb, hu, Sprintf_failed]
            split_ifs <;> simp_all [doTrace]

theorem requests_doTrace (env : Env) (r : Robot) (msg : Message) (m : String) :
    requests (doTrace env r msg m) = [sentRequest env r m] := by
  have h : ∀ l : List Request, List.filterMap Event.request? (l.map Event.roundTrip) = [] := by
    intro l
    induction l with
    | nil => rfl
    | cons a as ih => simp [List.filterMap_cons, Event.request?]
  simp [requests, doTrace, List.filterMap_cons, Event.request?, h]

theorem outbound_doTrace (env : Env) (r : Robot) (msg : Message) (m : String) :
    outbound (doTrace env r msg m) = (httpcl env r (sentRequest env r m)).roundTrips := by
  have h : ∀ l : List Request, List.filterMap Event.outbound? (l.map Event.roundTrip) = l := by
    intro l
    induction l with
    | nil => rfl
    | cons a as ih => simpa [List.filterMap_cons, Event.outbound?] using ih
  simp [outbound, doTrace, List.filterMap_cons, Event.outbound?, h]

theorem requests_append (t1 t2 : List Event) : requests (t1 ++ t2) = requests t1 ++ requests t2 := by
  simp [requests]

theorem outbound_append (t1 t2 : List Event) : outbound (t1 ++ t2) = outbound t1 ++ outbound t2 := by
  simp [outbound]

theorem mem_doTrace_iff (env : Env) (r : Robot) (msg : Message) (m : String) (e : Event) :
    e ∈ doTrace env r msg m ↔
      e = .jsonMarshal msg ∨ e = .newRequest "POST" (webURL env r) m ∨
      e = .clientDo (sentRequest env r m) ∨
      ∃ q ∈ (httpcl env r (sentRequest env r m)).roundTrips, e = .roundTrip q := by
  simp only [doTrace, List.mem_append, List.mem_cons, List.mem_singleton, List.not_mem_nil,
    or_false, List.mem_map]
  constructor
  · rintro ((h | h | h) | ⟨q, hq, rfl⟩)
    · exact Or.inl h
    · exact Or.inr (Or.inl h)
    · exact Or.inr (Or.inr (Or.inl h))
    · exact Or.inr (Or.inr (Or.inr ⟨q, hq, rfl⟩))
  · rintro (h | h | h | ⟨q, hq, rfl⟩)
    · exact Or.inl (Or.inl h)
    · exact Or.inl (Or.inr (Or.inl h))
    · exact Or.inl (Or.inr (Or.inr h))
    · exact Or.inr ⟨q, hq, rfl⟩

/-- The result expression of `send` once a body `data` has been read. -/
theorem send_of_unmarshal {env : Env} {r : Robot} {msg : Message} {data : String}
    (h : Event.jsonUnmarshal data ∈ (send env r msg).2) :
    (send env r msg).1 =
      (match jsonUnmarshal data with
       | .error err => some err
       | .ok dr => if dr.Errcode != 0 then
           some (.errorString ("dingrobot send failed: " ++ dr.Errmsg)) else none) := by
  rcases send_cases env r msg with ⟨err, _, hs⟩ | ⟨m, _, ⟨err, _, hs⟩ | ⟨req0, _, ⟨err, _, hs⟩ |
    ⟨resp, _, ⟨err, _, hs⟩ | ⟨d, _, hs⟩⟩⟩⟩
  all_goals rw [hs] at h ⊢
  all_goals simp [mem_doTrace_iff] at h
  subst h
  rfl

/-- The requests of a run: none, or the single request built by `send`. -/
theorem send_requests (env : Env) (r : Robot) (msg : Message) :
    ((¬∃ m req0, env.jsonMarshal msg = .ok m ∧
        NewRequest env "POST" (webURL env r) m = .ok req0) ∧
      requests (send env r msg).2 = [] ∧ outbound (send env r msg).2 = []) ∨
    (∃ m req0, env.jsonMarshal msg = .ok m ∧
        NewRequest env "POST" (webURL env r) m = .ok req0 ∧
        requests (send env r msg).2 = [sentRequest env r m] ∧
        outbound (send env r msg).2 = (httpcl env r (sentRequest env r m)).roundTrips) := by
  rcases send_cases env r msg with ⟨err, hm, hs⟩ | ⟨m, hm, ⟨err, hr, hs⟩ | ⟨req0, hr, ⟨err, _, hs⟩ |
    ⟨resp, _, ⟨err, _, hs⟩ | ⟨d, _, hs⟩⟩⟩⟩
  · left
    refine ⟨?_, by rw [hs]; rfl, by rw [hs]; rfl⟩
    rintro ⟨m, req0, h1, _⟩
    rw [hm] at h1; cases h1
  · left
    refine ⟨?_, by rw [hs]; rfl, by rw [hs]; rfl⟩
    rintro ⟨m2, req0, h1, h2⟩
    rw [hm] at h1; cases h1
    rw [hr] at h2; cases h2
  · right
    exact ⟨m, req0, hm, hr, by rw [hs]; exact requests_doTrace env r msg m,
      by rw [hs]; exact outbound_doTrace env r msg m⟩
  · right
    refine ⟨m, req0, hm, hr, ?_, ?_⟩
    · rw [hs]; simp only [requests_append, requests_doTrace]; rfl
    · rw [hs]; simp only [outbound_append, outbound_doTrace]; exact List.append_nil _
  · right
    refine ⟨m, req0, hm, hr, ?_, ?_⟩
    · rw [hs]; simp only [requests_append, requests_doTrace]; rfl
    · rw [hs]; simp only [outbound_append, outbound_doTrace]; exact List.append_nil _

theorem decode_no_field (dr : dingResponse) (members : List (List Char × Json))
    (h : ∀ m ∈ members, findField (unquote m.1) = none) :
    members.foldl storeMember (dr, none) = (dr, none) := by
  induction members with
  | nil => rfl
  | cons m ms ih =>
    have hm : storeMember (dr, none) m = (dr, none) := by
      simp [storeMember, h m (List.mem_cons_self _ _)]
    rw [List.foldl_cons, hm]
    exact ih (fun x hx => h x (List.mem_cons_of_mem _ hx))

/-- C2: the URL of the request `send` posts is the web hook itself when the
secret is empty, and the web hook followed by `genSignedURL(secret)` otherwise. -/
theorem send_posts_to (env : Env) (r : Robot) (msg : Message) (req : Request)
    (h : req ∈ requests (send env r msg).2) :
    (r.secret = "" → req.URL = r.webHook) ∧
    (r.secret ≠ "" → req.URL = r.webHook ++ genSignedURL env.unixNano r.secret) := by
  have hu : req.URL = webURL env r := by
    rcases send_requests env r msg with ⟨_, he, _⟩ | ⟨m, req0, _, _, he, _⟩
    · rw [he] at h; simp at h
    · rw [he] at h; simp at h; subst h; rfl
  rw [hu, webURL_eq]
  constructor
  · intro hs; simp [hs]
  · intro hs; simp [hs]

set_option maxRecDepth 100000 in
/-- Witness for C2: the signed request of `signedRobot` is posted. -/
theorem send_posts_to_witness :
    signedRequest ∈ requests (send (sampleEnv okBody) signedRobot sampleMessage).2 ∧
    ((signedRobot.secret = "" → signedRequest.URL = signedRobot.webHook) ∧
     (signedRobot.secret ≠ "" → signedRequest.URL =
        signedRobot.webHook ++ genSignedURL (sampleEnv okBody).unixNano signedRobot.secret)) :=
  ⟨by decide, send_posts_to (sampleEnv okBody) signedRobot sampleMessage signedRequest (by decide)⟩

/-- C3: once the body has been read and parses to `(errcode, errmsg)`, `send`
returns nil when `errcode = 0` and otherwise the error "dingrobot send failed: "
followed by `errmsg`; the body `{"errcode":0,"errmsg":""}` gives nil and the body
`{"errcode":300001,"errmsg":"token is not exist"}` gives the error with detail
"token is not exist". -/
theorem send_result_of_parsed (env : Env) (r : Robot) (msg : Message) (data : String)
    (h : Event.jsonUnmarshal data ∈ (send env r msg).2) :
    (∀ (errcode : Int) (errmsg : String), jsonUnmarshal data = .ok ⟨errcode, errmsg⟩ →
      (errcode = 0 → (send env r msg).1 = none) ∧
      (errcode ≠ 0 →
        (send env r msg).1 = some (.errorString ("dingrobot send failed: " ++ errmsg)))) ∧
    (data = okBody → (send env r msg).1 = none) ∧
    (data = rejectedBody →
      (send env r msg).1 = some (.errorString "dingrobot send failed: token is not exist")) := by
  rw [send_of_unmarshal h]
  refine ⟨?_, ?_, ?_⟩
  · intro errcode errmsg hp
    rw [hp]
    constructor
    · intro h0; simp [h0]
    · intro h0; simp [h0]
  · intro hd
    have hp : jsonUnmarshal data = .ok ⟨0, ""⟩ := by rw [hd]; rfl
    rw [hp]; rfl
  · intro hd
    have hp : jsonUnmarshal data = .ok ⟨300001, "token is not exist"⟩ := by rw [hd]; rfl
    rw [hp]; rfl

/-- Witness for C3: the body for an unknown token is read and rejected. -/
theorem send_result_of_parsed_witness :
    Event.jsonUnmarshal rejectedBody ∈ (send (sampleEnv rejectedBody) sampleRobot sampleMessage).2 ∧
    (send (sampleEnv rejectedBody) sampleRobot sampleMessage).1 =
      some (.errorString "dingrobot send failed: token is not exist") :=
  ⟨by decide,
    (send_result_of_parsed (sampleEnv rejectedBody) sampleRobot sampleMessage rejectedBody
      (by decide)).2.2 rfl⟩

/-- C4, as stated, fails: the body `{}` is valid JSON without `errcode` and
`errmsg`, it is read and parsed, and `send` returns nil, not a parse error. -/
theorem send_empty_object_succeeds :
    scanDocument "\x7b\x7d" = some (.object []) ∧
    Event.jsonUnmarshal "\x7b\x7d" ∈ (send (sampleEnv "\x7b\x7d") sampleRobot sampleMessage).2 ∧
    jsonUnmarshal "\x7b\x7d" = .ok ⟨0, ""⟩ ∧
    (send (sampleEnv "\x7b\x7d") sampleRobot sampleMessage).1 = none :=
  ⟨rfl, by decide, rfl, by decide⟩

/-- C4, amended: when the body read is a JSON object none of whose members
names `errcode` or `errmsg`, decoding leaves both fields at their zero values
and `send` returns nil. -/
theorem send_missing_fields (env : Env) (r : Robot) (msg : Message) (data : String)
    (members : List (List Char × Json))
    (h : Event.jsonUnmarshal data ∈ (send env r msg).2)
    (hv : scanDocument data = some (.object members))
    (hm : ∀ m ∈ members, findField (unquote m.1) = none) :
    jsonUnmarshal data = .ok ⟨0, ""⟩ ∧ (send env r msg).1 = none := by
  have hj : jsonUnmarshal data = .ok ⟨0, ""⟩ := by
    simp only [jsonUnmarshal, hv, decode, decode_no_field _ _ hm]
  rw [send_of_unmarshal h, hj]
  exact ⟨rfl, rfl⟩

/-- Witness for C4, amended: an object with a member that names no field. -/
theorem send_missing_fields_witness :
    Event.jsonUnmarshal "\x7b\"code\":7\x7d" ∈
      (send (sampleEnv "\x7b\"code\":7\x7d") sampleRobot sampleMessage).2 ∧
    scanDocument "\x7b\"code\":7\x7d" = some (.object [("code".data, .number ['7'])]) ∧
    (∀ m ∈ [("code".data, Json.number ['7'])], findField (unquote m.1) = none) ∧
    (jsonUnmarshal "\x7b\"code\":7\x7d" = .ok ⟨0, ""⟩ ∧
      (send (sampleEnv "\x7b\"code\":7\x7d") sampleRobot sampleMessage).1 = none) :=
  ⟨by decide, rfl, by decide,
    send_missing_fields (sampleEnv "\x7b\"code\":7\x7d") sampleRobot sampleMessage _
      [("code".data, .number ['7'])] (by decide) rfl (by decide)⟩

/-- C5: when the body read is not valid JSON, `send` returns the syntax error of
`json.Unmarshal`; the empty body and an HTML page are not valid JSON. -/
theorem send_invalid_json (env : Env) (r : Robot) (msg : Message) (data : String)
    (h : Event.jsonUnmarshal data ∈ (send env r msg).2)
    (hv : scanDocument data = none) :
    (send env r msg).1 = some .jsonSyntaxError ∧
    jsonUnmarshal data = .error .jsonSyntaxError ∧
    scanDocument "" = none ∧
    scanDocument "<html><body>502 Bad Gateway</body></html>" = none := by
  have hj : jsonUnmarshal data = .error .jsonSyntaxError := by
    simp only [jsonUnmarshal, hv]
  rw [send_of_unmarshal h, hj]
  exact ⟨rfl, rfl, rfl, rfl⟩

/-- Witness for C5: the empty body. -/
theorem send_invalid_json_witness :
    Event.jsonUnmarshal "" ∈ (send (sampleEnv "") sampleRobot sampleMessage).2 ∧
    scanDocument "" = none ∧
    ((send (sampleEnv "") sampleRobot sampleMessage).1 = some .jsonSyntaxError ∧
      jsonUnmarshal "" = .error .jsonSyntaxError ∧
      scanDocument "" = none ∧
      scanDocument "<html><body>502 Bad Gateway</body></html>" = none) :=
  ⟨by decide, rfl, send_invalid_json (sampleEnv "") sampleRobot sampleMessage "" (by decide) rfl⟩

/-- C6: when the client (the robot's own, or the default one) returns an error
for the request, `send` returns that error and neither reads nor parses a body. -/
theorem send_transport_error (env : Env) (r : Robot) (msg : Message) (req : Request)
    (err : GoError)
    (h : Event.clientDo req ∈ (send env r msg).2)
    (he : (httpcl env r req).result = .error err) :
    (send env r msg).1 = some err ∧
    Event.readAll ∉ (send env r msg).2 ∧
    (∀ data, Event.jsonUnmarshal data ∉ (send env r msg).2) ∧
    Event.bodyClose ∉ (send env r msg).2 ∧
    (∀ cl, r.hclient = some cl → httpcl env r = cl) ∧
    (r.hclient = none → httpcl env r = env.DefaultClient) := by
  have hcl : (∀ cl, r.hclient = some cl → httpcl env r = cl) ∧
      (r.hclient = none → httpcl env r = env.DefaultClient) := by
    constructor
    · intro cl hc; simp [httpcl, hc]
    · intro hc; simp [httpcl, hc]
  rcases send_cases env r msg with ⟨e, _, hs⟩ | ⟨m, _, ⟨e, _, hs⟩ | ⟨req0, _, ⟨e, hd, hs⟩ |
    ⟨resp, hd, ⟨e, _, hs⟩ | ⟨d, _, hs⟩⟩⟩⟩
  · rw [hs] at h; simp at h
  · rw [hs] at h; simp at h
  · rw [hs] at h ⊢
    simp [mem_doTrace_iff] at h
    subst h
    rw [hd] at he
    cases he
    exact ⟨rfl, by simp [mem_doTrace_iff], by simp [mem_doTrace_iff],
      by simp [mem_doTrace_iff], hcl⟩
  · rw [hs] at h
    simp [mem_doTrace_iff] at h
    subst h
    rw [hd] at he
    cases he
  · rw [hs] at h
    simp [mem_doTrace_iff] at h
    subst h
    rw [hd] at he
    cases he

/-- Witness for C6: a client that cannot connect. -/
theorem send_transport_error_witness :
    Event.clientDo sampleRequest ∈ (send (sampleEnv okBody) refusedRobot sampleMessage).2 ∧
    (httpcl (sampleEnv okBody) refusedRobot sampleRequest).result =
      .error (.other "connection refused") ∧
    (send (sampleEnv okBody) refusedRobot sampleMessage).1 = some (.other "connection refused") ∧
    Event.readAll ∉ (send (sampleEnv okBody) refusedRobot sampleMessage).2 :=
  ⟨by decide, rfl,
    (send_transport_error (sampleEnv okBody) refusedRobot sampleMessage sampleRequest
      (.other "connection refused") (by decide) rfl).1,
    (send_transport_error (sampleEnv okBody) refusedRobot sampleMessage sampleRequest
      (.other "connection refused") (by decide) rfl).2.1⟩

/-- C7: each of the four senders hands `send` the message struct of its own
kind, carrying that kind's discriminator and the arguments, each in its own field. -/
theorem senders_payload (env : Env) (r : Robot)
    (content title text messageURL picURL singleTitle singleURL btnOrientation hideAvatar : String)
    (atMobiles : Option (List String)) (isAtAll : Bool) :
    (SendText env r content atMobiles isAtAll =
        send env r (.text ⟨msgTypeText, ⟨content⟩, ⟨atMobiles, isAtAll⟩⟩) ∧
      (SendText env r content atMobiles isAtAll).2.head? =
        some (.jsonMarshal (.text ⟨msgTypeText, ⟨content⟩, ⟨atMobiles, isAtAll⟩⟩))) ∧
    (SendLink env r title text messageURL picURL =
        send env r (.link ⟨msgTypeLink, ⟨title, text, messageURL, picURL⟩⟩) ∧
      (SendLink env r title text messageURL picURL).2.head? =
        some (.jsonMarshal (.link ⟨msgTypeLink, ⟨title, text, messageURL, picURL⟩⟩))) ∧
    (SendMarkdown env r title text atMobiles isAtAll =
        send env r (.markdown ⟨msgTypeMarkdown, ⟨title, text⟩, ⟨atMobiles, isAtAll⟩⟩) ∧
      (SendMarkdown env r title text atMobiles isAtAll).2.head? =
        some (.jsonMarshal (.markdown ⟨msgTypeMarkdown, ⟨title, text⟩, ⟨atMobiles, isAtAll⟩⟩))) ∧
    (SendActionCard env r title text singleTitle singleURL btnOrientation hideAvatar =
        send env r (.actionCard ⟨msgTypeActionCard,
          ⟨title, text, singleTitle, singleURL, btnOrientation, hideAvatar⟩⟩) ∧
      (SendActionCard env r title text singleTitle singleURL btnOrientation hideAvatar).2.head? =
        some (.jsonMarshal (.actionCard ⟨msgTypeActionCard,
          ⟨title, text, singleTitle, singleURL, btnOrientation, hideAvatar⟩⟩))) ∧
    (Message.text ⟨msgTypeText, ⟨content⟩, ⟨atMobiles, isAtAll⟩⟩).at? = some ⟨atMobiles, isAtAll⟩ ∧
    (Message.markdown ⟨msgTypeMarkdown, ⟨title, text⟩, ⟨atMobiles, isAtAll⟩⟩).at? =
      some ⟨atMobiles, isAtAll⟩ ∧
    (Message.link ⟨msgTypeLink, ⟨title, text, messageURL, picURL⟩⟩).at? = none ∧
    (Message.actionCard ⟨msgTypeActionCard,
      ⟨title, text, singleTitle, singleURL, btnOrientation, hideAvatar⟩⟩).at? = none := by
  have hhead : ∀ m : Message, (send env r m).2.head? = some (.jsonMarshal m) := by
    intro m
    rcases send_cases env r m with ⟨e, _, hs⟩ | ⟨m', _, ⟨e, _, hs⟩ | ⟨req0, _, ⟨e, _, hs⟩ |
      ⟨resp, _, ⟨e, _, hs⟩ | ⟨d, _, hs⟩⟩⟩⟩ <;> rw [hs] <;> rfl
  exact ⟨⟨rfl, hhead _⟩, ⟨rfl, hhead _⟩, ⟨rfl, hhead _⟩, ⟨rfl, hhead _⟩, rfl, rfl, rfl, rfl⟩

/-- C9, as stated, fails in both directions: for the web hook ":" the request
cannot be built and `send` returns with no request handed to the client or put
through the transport; with a client that follows one redirect, the single
`Do` call of `send` puts two requests through the transport. -/
theorem send_not_one_request :
    ((requests (SendText (sampleEnv okBody) (NewRobot ":") "hi" none false).2).length = 0 ∧
      (outbound (SendText (sampleEnv okBody) (NewRobot ":") "hi" none false).2).length = 0 ∧
      (SendText (sampleEnv okBody) (NewRobot ":") "hi" none false).1 =
        some (.urlError "parse" ":" "missing protocol scheme")) ∧
    ((requests (send (sampleEnv okBody) redirectedRobot sampleMessage).2).length = 1 ∧
      (outbound (send (sampleEnv okBody) redirectedRobot sampleMessage).2).length = 2 ∧
      (send (sampleEnv okBody) redirectedRobot sampleMessage).1 = none) := by
  decide

/-- C9, amended: a call of `send` calls the client's `Do` at most once, exactly
once when the payload marshals and the request can be built and not at all
otherwise; the outbound requests of the call are those that this `Do` call puts
through the transport, however many the client makes: `send` adds none. -/
theorem send_request_count (env : Env) (r : Robot) (msg : Message) :
    (requests (send env r msg).2).length ≤ 1 ∧
    ((requests (send env r msg).2).length = 1 ↔
      ∃ m req0, env.jsonMarshal msg = .ok m ∧
        NewRequest env "POST" (webURL env r) m = .ok req0) ∧
    ((requests (send env r msg).2).length = 0 ↔
      ¬∃ m req0, env.jsonMarshal msg = .ok m ∧
        NewRequest env "POST" (webURL env r) m = .ok req0) ∧
    outbound (send env r msg).2 =
      (requests (send env r msg).2).flatMap fun req => (httpcl env r req).roundTrips := by
  rcases send_requests env r msg with ⟨hn, he, ho⟩ | ⟨m, req0, hm, hr, he, ho⟩
  · rw [he, ho]
    refine ⟨by simp, ?_, ?_, rfl⟩
    · constructor
      · intro h; simp at h
      · intro h; exact absurd h hn
    · constructor
      · intro _; exact hn
      · intro _; rfl
  · rw [he, ho]
    refine ⟨by simp, ?_, ?_, by simp⟩
    · constructor
      · intro _; exact ⟨m, req0, hm, hr⟩
      · intro _; rfl
    · constructor
      · intro h; simp at h
      · intro h; exact absurd ⟨m, req0, hm, hr⟩ h

end Dingrobot
